import Mathlib

/-!
Shallow embedding of the schema-validation / preprocessing core of the
workforce-analysis application, together with proofs of the behavioural
claims made by its specification.

The embedding models a pandas `DataFrame` as an ordered list of named,
dtyped columns whose cells are `Option Val` (a `none` cell is a missing
entry, pandas `NaN`/`NaT`).  Numbers are modelled as rationals.
-/

namespace WorkforceAnalysis

/-- Runtime cell values occurring in a pandas column: numbers are modelled
as rationals, datetimes as an integer tick count.  A missing entry
(`NaN`/`NaT`) is modelled as `none` at the cell level, not as a `Val`. -/
inductive Val where
  | num (q : Rat)
  | str (s : String)
  | timestamp (t : Int)
deriving DecidableEq

/-- pandas dtypes occurring in this code base (`uint8` is the dtype of
`pd.get_dummies` indicator columns). -/
inductive Dtype where
  | int64
  | float64
  | objectD
  | datetime64
  | boolD
  | uint8
deriving DecidableEq

/-- The text pandas prints for a dtype, as compared by
`DataSchema.validate_dataframe` (`str(df[col].dtype)`). -/
def Dtype.text : Dtype → String
  | .int64 => "int64"
  | .float64 => "float64"
  | .objectD => "object"
  | .datetime64 => "datetime64[ns]"
  | .boolD => "bool"
  | .uint8 => "uint8"

/-- One named column of a frame. -/
structure Col where
  name : String
  dtype : Dtype
  vals : List (Option Val)
deriving DecidableEq

/-- A pandas `DataFrame`: an ordered list of named columns. -/
abbrev Frame := List Col

/-- Look up a column by name (first match, as for unique pandas labels). -/
def findCol (df : Frame) (c : String) : Option Col :=
  df.find? (fun col => col.name == c)

/-- Membership test `c in df.columns`. -/
def hasCol (df : Frame) (c : String) : Bool :=
  (findCol df c).isSome

/-- The cells of column `c` (empty when the column is absent). -/
def colVals (df : Frame) (c : String) : List (Option Val) :=
  ((findCol df c).map Col.vals).getD []

/-- Number of missing cells in one column. -/
def colMissing (c : Col) : Nat :=
  c.vals.count none

/-- Total number of missing cells in a frame (`df.isnull().sum().sum()`). -/
def frameMissing (df : Frame) : Nat :=
  (df.map colMissing).sum

/- ### The declarative schema (src/schemas/data_schema.py) -/

/-- Enum `ColumnType` from `data_schema.py`. -/
inductive ColumnType where
  | INTEGER
  | FLOAT
  | STRING
  | DATETIME
  | BOOLEAN
deriving DecidableEq

/-- The `.value` string of each `ColumnType` member. -/
def ColumnType.value : ColumnType → String
  | .INTEGER => "int64"
  | .FLOAT => "float64"
  | .STRING => "object"
  | .DATETIME => "datetime64[ns]"
  | .BOOLEAN => "bool"

/-- Pydantic model `ColumnDefinition` from `data_schema.py`. -/
structure ColumnDefinition where
  name : String
  type : ColumnType
  required : Bool := true
  description : Option String := none
  allowed_values : Option (List Val) := none
  min_value : Option Rat := none
  max_value : Option Rat := none
deriving DecidableEq

/-- Pydantic model `DataSchema` from `data_schema.py`; `columns` is the
ordered name-to-definition mapping. -/
structure DataSchema where
  columns : List (String × ColumnDefinition)
  primary_key : String := "EmployeeNumber"
  version : String := "1.0.0"
deriving DecidableEq

/- ### Message rendering helpers -/

/-- A single-quote character as a string (used by Python list repr). -/
def squote : String := String.singleton (Char.ofNat 39)

/-- Python `sep.join(xs)`. -/
def joinWith (sep : String) : List String → String
  | [] => ""
  | [s] => s
  | s :: rest => s ++ sep ++ joinWith sep rest

/-- The newline-join used by `raise ValueError("\n".join(errors))`. -/
def joinLines (xs : List String) : String := joinWith "\n" xs

/-- Python repr of a list of strings, e.g. a repr with quoted elements. -/
def pyStrList (xs : List String) : String :=
  "[" ++ joinWith ", " (xs.map (fun s => squote ++ s ++ squote)) ++ "]"

/-- Deterministic rendering of a rational for error messages (integers
print without a denominator, as Python prints the schema bounds). -/
def ratText (q : Rat) : String :=
  if q.den = 1 then toString q.num else toString q.num ++ "/" ++ toString q.den

/-- Rendering of one cell value inside an invalid-values message. -/
def valText : Val → String
  | .num q => ratText q
  | .str s => squote ++ s ++ squote
  | .timestamp t => toString t

/-- Rendering of a cell (missing cells print as `nan`). -/
def cellText : Option Val → String
  | some v => valText v
  | none => "nan"

/-- Rendering of the array of offending values in a domain violation. -/
def pyValsList (xs : List (Option Val)) : String :=
  "[" ++ joinWith " " (xs.map cellText) ++ "]"

/- ### DataSchema.validate_dataframe -/

/-- The required columns absent from the frame
(`[col for col, defn in self.columns.items() if defn.required and col not in df.columns]`). -/
def requiredMissing (sch : DataSchema) (df : Frame) : List String :=
  (sch.columns.filter (fun p => p.2.required && !(hasCol df p.1))).map (fun p => p.1)

/-- The presence-check contribution to the error list: one aggregated
entry listing every missing required column, or nothing. -/
def presenceErrors (sch : DataSchema) (df : Frame) : List String :=
  if requiredMissing sch df = [] then []
  else ["Missing required columns: " ++ pyStrList (requiredMissing sch df)]

/-- The type-conformance check for one present column. -/
def typeErrors (df : Frame) (name : String) (defn : ColumnDefinition) : List String :=
  match findCol df name with
  | none => []
  | some c =>
    if c.dtype.text = defn.type.value then []
    else ["Column " ++ name ++ " has incorrect type. Expected " ++
          defn.type.value ++ ", got " ++ c.dtype.text]

/-- Membership of one cell in the allowed-value list
(`df[col].isin(defn.allowed_values)`); a missing cell is never a member. -/
def isinList (e : Option Val) (allowed : List Val) : Bool :=
  match e with
  | some v => decide (v ∈ allowed)
  | none => false

/-- First-occurrence deduplication, as `Series.unique()` orders values. -/
def uniqueFirst {α : Type} [DecidableEq α] (l : List α) : List α :=
  l.foldl (fun acc x => if x ∈ acc then acc else acc ++ [x]) []

/-- The distinct offending values of a column under an allowed-value list
(`df[~df[col].isin(allowed)][col].unique()`). -/
def offendingValues (vals : List (Option Val)) (allowed : List Val) : List (Option Val) :=
  uniqueFirst (vals.filter (fun e => !(isinList e allowed)))

/-- The domain-membership check for one present column. -/
def domainErrors (df : Frame) (name : String) (defn : ColumnDefinition) : List String :=
  match defn.allowed_values, findCol df name with
  | some allowed, some c =>
    if offendingValues c.vals allowed = [] then []
    else ["Column " ++ name ++ " contains invalid values: " ++
          pyValsList (offendingValues c.vals allowed)]
  | _, _ => []

/-- Whether some numeric cell of the column is strictly below `m`
(`(df[col] < m).any()`; missing cells compare false). -/
def numsBelow (vals : List (Option Val)) (m : Rat) : Bool :=
  vals.any (fun e => match e with | some (.num q) => decide (q < m) | _ => false)

/-- Whether some numeric cell of the column is strictly above `M`. -/
def numsAbove (vals : List (Option Val)) (M : Rat) : Bool :=
  vals.any (fun e => match e with | some (.num q) => decide (M < q) | _ => false)

/-- The below-minimum half of the range check for one present column. -/
def minErrors (df : Frame) (name : String) (defn : ColumnDefinition) : List String :=
  match defn.min_value, findCol df name with
  | some m, some c =>
    if numsBelow c.vals m then
      ["Column " ++ name ++ " contains values below minimum " ++ ratText m]
    else []
  | _, _ => []

/-- The above-maximum half of the range check for one present column. -/
def maxErrors (df : Frame) (name : String) (defn : ColumnDefinition) : List String :=
  match defn.max_value, findCol df name with
  | some M, some c =>
    if numsAbove c.vals M then
      ["Column " ++ name ++ " contains values above maximum " ++ ratText M]
    else []
  | _, _ => []

/-- The range check runs only for Integer/Float specs. -/
def rangeErrors (df : Frame) (name : String) (defn : ColumnDefinition) : List String :=
  if defn.type = ColumnType.INTEGER ∨ defn.type = ColumnType.FLOAT then
    minErrors df name defn ++ maxErrors df name defn
  else []

/-- All violations one present column contributes (checks 2 then 3 then 4,
exactly the loop body of `validate_dataframe`); absent columns are only
reported by the presence check. -/
def colErrors (df : Frame) (p : String × ColumnDefinition) : List String :=
  if hasCol df p.1 then
    typeErrors df p.1 p.2 ++ domainErrors df p.1 p.2 ++ rangeErrors df p.1 p.2
  else []

/-- The per-column loop of `validate_dataframe`, columns in registry order. -/
def perColumnErrors (sch : DataSchema) (df : Frame) : List String :=
  (sch.columns.map (colErrors df)).flatten

/-- The full aggregated error list of `validate_dataframe`. -/
def validationErrors (sch : DataSchema) (df : Frame) : List String :=
  presenceErrors sch df ++ perColumnErrors sch df

/-- `DataSchema.validate_dataframe`: collects every violation and raises a
single `ValueError` whose message newline-joins them, else returns `True`. -/
def validate_dataframe (sch : DataSchema) (df : Frame) : Except String Bool :=
  if validationErrors sch df = [] then Except.ok true
  else Except.error (joinLines (validationErrors sch df))

/- ### The concrete HR schema constant (data_schema.py, HR_SCHEMA) -/

/-- Shorthand for a string-valued allowed list. -/
def strVals (xs : List String) : List Val := xs.map Val.str

/-- The `HR_SCHEMA` constant of `data_schema.py` (descriptions omitted:
they never influence behaviour). -/
def HR_SCHEMA : DataSchema :=
  { columns :=
    [ ("EmployeeNumber",
       { name := "EmployeeNumber", type := .INTEGER, min_value := some 1 }),
      ("Age",
       { name := "Age", type := .INTEGER, min_value := some 18, max_value := some 100 }),
      ("Department",
       { name := "Department", type := .STRING,
         allowed_values := some (strVals ["IT", "HR", "Finance", "Marketing",
           "Operations", "Sales", "Research", "Engineering"]) }),
      ("JobRole",
       { name := "JobRole", type := .STRING,
         allowed_values := some (strVals ["Developer", "Engineer", "System Administrator",
           "IT Manager", "Technical Specialist", "HR Manager", "HR Specialist", "Recruiter",
           "HR Director", "Financial Analyst", "Accountant", "Finance Manager", "Controller",
           "Marketing Specialist", "Marketing Manager", "Brand Manager", "Marketing Director",
           "Operations Manager", "Operations Specialist", "Supply Chain Manager",
           "Sales Representative", "Sales Manager", "Account Executive", "Sales Director",
           "Research Scientist", "Research Analyst", "Research Director",
           "Senior Engineer", "Engineering Manager", "Technical Director"]) }),
      ("Salary",
       { name := "Salary", type := .INTEGER, min_value := some 0 }),
      ("YearsAtCompany",
       { name := "YearsAtCompany", type := .INTEGER, min_value := some 0, max_value := some 50 }),
      ("JobSatisfaction",
       { name := "JobSatisfaction", type := .INTEGER, min_value := some 1, max_value := some 5 }),
      ("WorkLifeBalance",
       { name := "WorkLifeBalance", type := .INTEGER, min_value := some 1, max_value := some 5 }),
      ("PerformanceRating",
       { name := "PerformanceRating", type := .INTEGER, min_value := some 1, max_value := some 5 }),
      ("Attrition",
       { name := "Attrition", type := .STRING,
         allowed_values := some (strVals ["Yes", "No"]) }),
      ("HireDate",
       { name := "HireDate", type := .DATETIME }),
      ("TerminationDate",
       { name := "TerminationDate", type := .DATETIME, required := false }),
      ("Education",
       { name := "Education", type := .INTEGER, min_value := some 1, max_value := some 5 }),
      ("EducationField",
       { name := "EducationField", type := .STRING,
         allowed_values := some (strVals ["Life Sciences", "Medical", "Marketing",
           "Technical Degree", "Other", "Human Resources"]) }),
      ("Gender",
       { name := "Gender", type := .STRING,
         allowed_values := some (strVals ["Male", "Female"]) }),
      ("MaritalStatus",
       { name := "MaritalStatus", type := .STRING,
         allowed_values := some (strVals ["Single", "Married", "Divorced"]) }),
      ("NumCompaniesWorked",
       { name := "NumCompaniesWorked", type := .INTEGER, min_value := some 0, max_value := some 20 }),
      ("TotalWorkingYears",
       { name := "TotalWorkingYears", type := .INTEGER, min_value := some 0, max_value := some 50 }),
      ("TrainingTimesLastYear",
       { name := "TrainingTimesLastYear", type := .INTEGER, min_value := some 0, max_value := some 10 }),
      ("YearsInCurrentRole",
       { name := "YearsInCurrentRole", type := .INTEGER, min_value := some 0, max_value := some 50 }),
      ("YearsSinceLastPromotion",
       { name := "YearsSinceLastPromotion", type := .INTEGER, min_value := some 0, max_value := some 50 }),
      ("YearsWithCurrManager",
       { name := "YearsWithCurrManager", type := .INTEGER, min_value := some 0, max_value := some 50 }) ] }

/- ### Column statistics used by the preprocessing code -/

/-- Exact rational addition, phrased through `Rat.divInt` so that concrete
instances evaluate by kernel reduction. -/
def ratAdd (a b : Rat) : Rat :=
  Rat.divInt (a.num * b.den + b.num * a.den) (a.den * b.den)

/-- Exact rational division (division by zero yields zero, the `Rat`
convention), phrased through `Rat.divInt` for kernel reduction. -/
def ratDiv (a b : Rat) : Rat :=
  Rat.divInt (a.num * b.den) (a.den * b.num)

/-- Exact sum of a list of rationals. -/
def ratSum (l : List Rat) : Rat := l.foldr ratAdd 0

/-- The numeric cells of a column (non-missing `num` values). -/
def colNums (vals : List (Option Val)) : List Rat :=
  vals.filterMap (fun e => match e with | some (.num q) => some q | _ => none)

/-- Column mean over non-missing numeric cells (`Series.mean()`); `none`
when there is no numeric cell, as pandas then yields `NaN`. -/
def colMean (vals : List (Option Val)) : Option Val :=
  let nums := colNums vals
  if nums.length = 0 then none
  else some (Val.num (ratDiv (ratSum nums) (mkRat nums.length 1)))

/-- Lexicographic code-point comparison of strings (the order Python and
pandas use when sorting string values). -/
def strLeChars : List Char → List Char → Bool
  | [], _ => true
  | _ :: _, [] => false
  | a :: as, b :: bs => if a = b then strLeChars as bs else decide (a < b)

/-- Sorting order used for pandas value sorting: numbers, then strings,
then timestamps (real columns are homogeneous, the cross-kind case is a
tie-break that never occurs in this code base). -/
def valLe (a b : Val) : Bool :=
  match a, b with
  | .num p, .num q => decide (p ≤ q)
  | .num _, _ => true
  | .str _, .num _ => false
  | .str s, .str t => strLeChars s.data t.data
  | .str _, .timestamp _ => true
  | .timestamp _, .num _ => false
  | .timestamp _, .str _ => false
  | .timestamp s, .timestamp t => decide (s ≤ t)

/-- Insert into a sorted list (ascending by `valLe`). -/
def insertSorted (v : Val) : List Val → List Val
  | [] => [v]
  | x :: xs => if valLe v x then v :: x :: xs else x :: insertSorted v xs

/-- Ascending insertion sort by `valLe`. -/
def sortVals (l : List Val) : List Val :=
  l.foldr insertSorted []

/-- Sorted list of distinct observed (non-missing) values of a column,
the category order `pd.get_dummies` uses. -/
def sortedDistinct (vals : List (Option Val)) : List Val :=
  sortVals (uniqueFirst (vals.filterMap id))

/-- Column median over non-missing numeric cells (`Series.median()`):
middle element of the sorted values, or the average of the two middle
elements for an even count; `none` (NaN) when there is no numeric cell. -/
def colMedian (vals : List (Option Val)) : Option Val :=
  let nums := (sortVals ((colNums vals).map Val.num)).filterMap
    (fun v => match v with | .num q => some q | _ => none)
  let n := nums.length
  if n = 0 then none
  else if n % 2 = 1 then some (Val.num (nums.getD (n / 2) 0))
  else some (Val.num (ratDiv (ratAdd (nums.getD (n / 2 - 1) 0) (nums.getD (n / 2) 0)) 2))

/-- `Series.mode()[0]`: the most frequent non-missing value; pandas
`mode()` returns the maximally frequent values in sorted order, so ties
resolve to the smallest such value.  `none` models the empty mode of an
all-missing column (where the Python subscript `[0]` would fail). -/
def colModeFirst (vals : List (Option Val)) : Option Val :=
  let present := vals.filterMap id
  let best := (uniqueFirst present).filter
    (fun v => present.count v = (uniqueFirst present).foldr
      (fun w acc => max (present.count w) acc) 0)
  (sortVals best).head?

/-- `fillna`: replace each missing cell by the replacement (a `none`
replacement — filling with NaN — leaves cells missing). -/
def fillEntry (repl : Option Val) : Option Val → Option Val
  | some v => some v
  | none => repl

/-- `Series.fillna` over one column. -/
def fillCol (c : Col) (repl : Option Val) : Col :=
  { c with vals := c.vals.map (fillEntry repl) }

/-- Whether a column has a missing cell (`df[col].isnull().any()`). -/
def hasNullCol (c : Col) : Bool :=
  c.vals.any (fun e => e = none)

/- ### pd.get_dummies (drop_first=True), as called by the preprocessors -/

/-- The name suffix `str(value)` used for an indicator column. -/
def dummyText : Val → String
  | .num q => ratText q
  | .str s => s
  | .timestamp t => toString t

/-- The indicator column of one category value: named `name_value`, with
a 1 exactly in the rows whose cell equals the value (rows whose cell is
missing get 0 in every indicator column, the `dummy_na=False` default). -/
def dummyColFor (c : Col) (v : Val) : Col :=
  { name := c.name ++ "_" ++ dummyText v,
    dtype := Dtype.uint8,
    vals := c.vals.map (fun e => some (Val.num (if e = some v then 1 else 0))) }

/-- The indicator columns `pd.get_dummies` produces for one categorical
column under `drop_first=True`: one `uint8` column per distinct observed
value except the first in sorted order. -/
def dummyCols (c : Col) : List Col :=
  ((sortedDistinct c.vals).drop 1).map (dummyColFor c)

/-- `pd.get_dummies(df, columns=cats, drop_first=True)`: the non-encoded
columns keep their relative order, followed by the indicator columns of
each encoded column. -/
def get_dummies (df : Frame) (cats : List String) : Frame :=
  df.filter (fun c => !(cats.contains c.name)) ++
    (cats.map (fun n => ((findCol df n).map dummyCols).getD [])).flatten

/- ### attrition_agent.preprocess_data -/

/-- Whether `df.mean()` produces an entry for the column (numeric-like
dtype); object and datetime columns are skipped. -/
def meanApplies (d : Dtype) : Bool :=
  d = Dtype.int64 ∨ d = Dtype.float64 ∨ d = Dtype.uint8 ∨ d = Dtype.boolD

/-- `df.fillna(df.mean())`: every numeric-like column is filled with its
own mean; other columns have no entry in the mean series and are left
untouched. -/
def fillnaFrameMean (df : Frame) : Frame :=
  df.map (fun c => if meanApplies c.dtype then fillCol c (colMean c.vals) else c)

/-- Standalone `preprocess_data` of `attrition_agent.py`: drop the two
date columns, one-hot encode every object-dtype column except
`Attrition` with `drop_first=True`, then fill missing values with the
column means. -/
def preprocess_data (df : Frame) : Frame :=
  let dfDropped := df.filter (fun c => !(c.name = "HireDate" ∨ c.name = "TerminationDate"))
  let cats := (dfDropped.filter (fun c => c.dtype = Dtype.objectD && c.name ≠ "Attrition")).map Col.name
  fillnaFrameMean (get_dummies dfDropped cats)

/- ### DataLoader._preprocess_data -/

/-- The exclusion set written inline in `DataLoader._preprocess_data`. -/
def dlExcluded : List String :=
  ["Department", "JobRole", "Attrition", "EducationField", "Gender", "MaritalStatus"]

/-- The categorical columns the loader one-hot encodes: schema STRING
columns outside the exclusion set (for `HR_SCHEMA` this list is empty,
because the exclusion set names every STRING column). -/
def dl_categorical_cols (sch : DataSchema) : List String :=
  (sch.columns.filter (fun p => p.2.type = ColumnType.STRING && !(dlExcluded.contains p.1))).map
    (fun p => p.1)

/-- The numeric columns of the schema, as the loader computes them. -/
def dl_numeric_cols (sch : DataSchema) : List String :=
  (sch.columns.filter (fun p =>
    p.2.type = ColumnType.INTEGER ∨ p.2.type = ColumnType.FLOAT)).map (fun p => p.1)

/-- The loader's imputation line
`df[numeric_cols] = df[numeric_cols].fillna(df[numeric_cols].mean())`:
each listed column is filled with its own mean; all other columns —
in particular every Text column — are untouched.  (The Python selection
presupposes the listed columns are present; claims are only about
present columns.) -/
def dlFillNumericMean (numCols : List String) (df : Frame) : Frame :=
  df.map (fun c => if numCols.contains c.name then fillCol c (colMean c.vals) else c)

/-- `DataLoader._preprocess_data`: dummy-encode the (empty, for
`HR_SCHEMA`) categorical list, impute schema-numeric columns with their
means, then fail unless every schema-required column is still present. -/
def DataLoader_preprocess_data (sch : DataSchema) (df : Frame) : Except String Frame :=
  let dfp := get_dummies df (dl_categorical_cols sch)
  let dfp := dlFillNumericMean (dl_numeric_cols sch) dfp
  let required := (sch.columns.filter (fun p => p.2.required)).map (fun p => p.1)
  let missing := required.filter (fun c => !(hasCol dfp c))
  if missing = [] then Except.ok dfp
  else Except.error ("Missing required columns after preprocessing: " ++ pyStrList missing)

/- ### BaseAgent.preprocess_data, missing-value step (config-driven) -/

/-- `config.data.numeric_columns` from `config/config.py`. -/
def config_numeric_columns : List String :=
  ["Age", "Salary", "YearsAtCompany", "JobSatisfaction", "WorkLifeBalance",
   "PerformanceRating", "Education", "NumCompaniesWorked", "TotalWorkingYears",
   "TrainingTimesLastYear", "YearsInCurrentRole", "YearsSinceLastPromotion",
   "YearsWithCurrManager"]

/-- `config.data.categorical_columns` from `config/config.py`. -/
def config_categorical_columns : List String :=
  ["Department", "JobRole", "EducationField", "Gender", "MaritalStatus", "Attrition"]

/-- `config.data.preprocessing_steps` from `config/config.py`. -/
def config_preprocessing_steps : List String :=
  ["handle_missing_values", "convert_dates", "encode_categorical", "scale_numeric"]

/-- The `handle_missing_values` step of `BaseAgent.preprocess_data`:
configured numeric columns with a missing cell get `fillna(median)`,
configured categorical columns with a missing cell get
`fillna(mode()[0])`.  The two configured lists are disjoint and each
column is filled from its own cells, so the two per-column loops of the
source are one pass over the frame. -/
def baFillMissing (df : Frame) : Frame :=
  df.map (fun c =>
    if config_numeric_columns.contains c.name && hasNullCol c then
      fillCol c (colMedian c.vals)
    else if config_categorical_columns.contains c.name && hasNullCol c then
      fillCol c (colModeFirst c.vals)
    else c)

/- ### The model-inference component (attrition_agent.py) -/

/-- Number of rows of a frame (pandas frames are rectangular; the claims
that need it carry a well-formedness hypothesis). -/
def nrows (df : Frame) : Nat :=
  (df.head?.map (fun c => c.vals.length)).getD 0

/-- Rectangularity: every column has exactly `n` cells. -/
def Rectangular (df : Frame) (n : Nat) : Prop :=
  ∀ c ∈ df, c.vals.length = n

/-- An opaque fitted classifier (the sklearn `RandomForestClassifier` the
spec treats as an external capability): a per-row positive-class
probability.  The range field is the library's contract that
`predict_proba` yields probabilities. -/
structure Model where
  proba : List Rat → Rat
  proba_range : ∀ r, 0 ≤ proba r ∧ proba r ≤ 1

/-- An opaque fitted feature scaler (sklearn `StandardScaler`, also an
external capability): `transform` rescales each row independently from
the fitted parameters, so it is a per-row map and preserves row count. -/
structure Scaler where
  transformRow : List Rat → List Rat

/-- A numeric cell as the float sklearn receives (feature frames of
well-formed inputs contain only numbers after preprocessing). -/
def cellToRat : Option Val → Rat
  | some (.num q) => q
  | _ => 0

/-- The zero-fill loop of `predict_attrition`: an expected feature column
missing from the preprocessed frame is created as an all-zero column
(`df_processed[col] = 0`) before selection. -/
def featureColumn (df : Frame) (n : Nat) (f : String) : List (Option Val) :=
  match findCol df f with
  | some c => c.vals
  | none => List.replicate n (some (Val.num 0))

/-- The feature matrix `X = df_processed[feature_columns]`, row-major, in
the exact order of the persisted feature-column list. -/
def featureRows (df : Frame) (feats : List String) (n : Nat) : List (List Rat) :=
  (List.range n).map (fun i => feats.map (fun f => cellToRat ((featureColumn df n f).getD i none)))

/-- The inference tail of `predict_attrition` once model, scaler and
feature list are at hand: preprocess, zero-fill and select features,
scale, score each row, and pair scores with `df['EmployeeNumber']`. -/
def predict_with (m : Model) (s : Scaler) (feats : List String) (df : Frame) :
    List (Option Val × Rat) :=
  let dfp := preprocess_data df
  let n := nrows dfp
  let risks := ((featureRows dfp feats n).map s.transformRow).map m.proba
  (colVals df "EmployeeNumber").zip risks

/-- The persisted artifact set: three co-located blobs (classifier,
scaler, ordered feature-column list).  A blob that is absent on disk or
fails to load is `none`. -/
structure ArtifactStore where
  modelBlob : Option Model
  scalerBlob : Option Scaler
  featuresBlob : Option (List String)

/-- The loading step of `AttritionAgent.load_model` / the `try` block of
`predict_attrition`: the triple is produced only when all three blobs
are present and loadable, otherwise it is treated as absent. -/
def load_artifacts (st : ArtifactStore) : Option (Model × Scaler × List String) :=
  match st.modelBlob, st.scalerBlob, st.featuresBlob with
  | some m, some s, some f => some (m, s, f)
  | _, _, _ => none

/-- `AttritionAgent.load_model` returns whether the triple loaded. -/
def AttritionAgent_load_model (st : ArtifactStore) : Bool :=
  (load_artifacts st).isSome

/-- `predict_attrition`: try to load the persisted triple; on any failure
fall back to training a fresh triple on the current request's frame
(`agent.train_model(df)`, an opaque external training capability) and
predict with it — no error is surfaced to the caller. -/
def predict_attrition (st : ArtifactStore) (trainFn : Frame → Model × Scaler × List String)
    (df : Frame) : List (Option Val × Rat) :=
  match load_artifacts st with
  | some (m, s, f) => predict_with m s f df
  | none =>
    let t := trainFn df
    predict_with t.1 t.2.1 t.2.2 df

/- ### A reference heap, for the no-caller-mutation claims -/

/-- A heap of Python frame objects: references are allocation indices.
`validate_dataframe` only reads; the two preprocessors copy first and
mutate only the copy. -/
structure PyHeap where
  next : Nat
  mem : Nat → Frame

/-- Dereference. -/
def PyHeap.read (h : PyHeap) (r : Nat) : Frame := h.mem r

/-- In-place mutation of the object behind an existing reference. -/
def PyHeap.write (h : PyHeap) (r : Nat) (t : Frame) : PyHeap :=
  { next := h.next, mem := Function.update h.mem r t }

/-- Allocation of a fresh object (`df.copy()`, or a library call
returning a new frame). -/
def PyHeap.alloc (h : PyHeap) (t : Frame) : PyHeap × Nat :=
  ({ next := h.next + 1, mem := Function.update h.mem h.next t }, h.next)

/-- `DataSchema.validate_dataframe` as the caller runs it: the body
contains no assignment to the frame, so the heap passes through
untouched. -/
def validate_dataframe_ref (sch : DataSchema) (h : PyHeap) (r : Nat) :
    Except String Bool × PyHeap :=
  (validate_dataframe sch (h.read r), h)

/-- `DataLoader._preprocess_data` with its object effects explicit:
`df.copy()` allocates, `pd.get_dummies` returns a fresh frame the local
name is rebound to, the imputation line mutates that fresh frame in
place, and the consistency check raises without further writes. -/
def DataLoader_preprocess_ref (sch : DataSchema) (h : PyHeap) (r : Nat) :
    Except String Nat × PyHeap :=
  let a1 := h.alloc (h.read r)
  let a2 := a1.1.alloc (get_dummies (a1.1.read a1.2) (dl_categorical_cols sch))
  let h3 := a2.1.write a2.2 (dlFillNumericMean (dl_numeric_cols sch) (a2.1.read a2.2))
  let required := (sch.columns.filter (fun p => p.2.required)).map (fun p => p.1)
  let missing := required.filter (fun c => !(hasCol (h3.read a2.2) c))
  if missing = [] then (Except.ok a2.2, h3)
  else (Except.error ("Missing required columns after preprocessing: " ++ pyStrList missing), h3)

/-- `config.data.date_columns` from `config/config.py`. -/
def config_date_columns : List String := ["HireDate", "TerminationDate"]

/-- The `convert_dates` step: `df[col] = pd.to_datetime(df[col])` per
configured date column; the parse itself is the opaque library call
`toDatetimeCol`. -/
def convertDateCols (toDatetimeCol : List (Option Val) → List (Option Val)) (df : Frame) : Frame :=
  df.map (fun c =>
    if config_date_columns.contains c.name then { c with vals := toDatetimeCol c.vals } else c)

/-- sklearn `LabelEncoder.fit_transform`: each value becomes its index in
the sorted list of distinct observed values. -/
def labelEncodeCol (vals : List (Option Val)) : List (Option Val) :=
  let classes := sortedDistinct vals
  vals.map (fun e => match e with
    | some v => some (Val.num (mkRat (classes.indexOf v) 1))
    | none => none)

/-- The `encode_categorical` step of `BaseAgent.preprocess_data`. -/
def encodeCategoricalCols (df : Frame) : Frame :=
  df.map (fun c =>
    if config_categorical_columns.contains c.name then
      { c with vals := labelEncodeCol c.vals }
    else c)

/-- The `scale_numeric` step: per configured numeric column, the fitted
`StandardScaler` column transform (opaque: standardisation divides by a
standard deviation, an irrational quantity, so it stays a parameter). -/
def scaleNumericCols (scaleCol : List (Option Val) → List (Option Val)) (df : Frame) : Frame :=
  df.map (fun c =>
    if config_numeric_columns.contains c.name then { c with vals := scaleCol c.vals } else c)

/-- `BaseAgent.preprocess_data` with its object effects explicit: the one
allocation is `data.copy()`; all four configured steps then mutate that
copy in place (`fillna(..., inplace=True)` and column assignments). -/
def BaseAgent_preprocess_ref (toDatetimeCol scaleCol : List (Option Val) → List (Option Val))
    (h : PyHeap) (r : Nat) : Except String Nat × PyHeap :=
  let a1 := h.alloc (h.read r)
  let h2 := a1.1.write a1.2 (baFillMissing (a1.1.read a1.2))
  let h3 := h2.write a1.2 (convertDateCols toDatetimeCol (h2.read a1.2))
  let h4 := h3.write a1.2 (encodeCategoricalCols (h3.read a1.2))
  let h5 := h4.write a1.2 (scaleNumericCols scaleCol (h4.read a1.2))
  (Except.ok a1.2, h5)

/- ### Substring occurrence, for the message claims -/

/-- The message `hay` mentions the text `needle` (occurrence as a
contiguous substring, at the character level). -/
def strMentions (hay needle : String) : Prop :=
  ∃ p q : List Char, hay.data = p ++ (needle.data ++ q)

/- ### Concrete frames used by the specification's concrete scenarios -/

/-- Shorthand for a fully-present integer column. -/
def intCol (name : String) (xs : List Int) : Col :=
  { name := name, dtype := Dtype.int64, vals := xs.map (fun i => some (Val.num (i : Rat))) }

/-- Shorthand for a fully-present string column. -/
def strCol (name : String) (xs : List String) : Col :=
  { name := name, dtype := Dtype.objectD, vals := xs.map (fun s => some (Val.str s)) }

/-- The 5-row table of the specification's categorical-expansion
scenario. -/
def sample5 : Frame :=
  [ intCol "EmployeeNumber" [1, 2, 3, 4, 5],
    strCol "Attrition" ["Yes", "No", "Yes", "No", "No"],
    intCol "Age" [30, 35, 40, 45, 50],
    strCol "Department" ["IT", "HR", "IT", "Finance", "HR"] ]

/-- A frame with no columns at all. -/
def emptyFrame : Frame := []

/-- A one-row table that satisfies every `HR_SCHEMA` check except that
`Age = 15` lies below the minimum of 18. -/
def age15Frame : Frame :=
  [ intCol "EmployeeNumber" [1],
    intCol "Age" [15],
    strCol "Department" ["IT"],
    strCol "JobRole" ["Developer"],
    intCol "Salary" [50000],
    intCol "YearsAtCompany" [5],
    intCol "JobSatisfaction" [3],
    intCol "WorkLifeBalance" [3],
    intCol "PerformanceRating" [3],
    strCol "Attrition" ["No"],
    { name := "HireDate", dtype := Dtype.datetime64, vals := [some (Val.timestamp 1577836800)] },
    { name := "TerminationDate", dtype := Dtype.datetime64, vals := [none] },
    intCol "Education" [3],
    strCol "EducationField" ["Medical"],
    strCol "Gender" ["Female"],
    strCol "MaritalStatus" ["Single"],
    intCol "NumCompaniesWorked" [2],
    intCol "TotalWorkingYears" [10],
    intCol "TrainingTimesLastYear" [2],
    intCol "YearsInCurrentRole" [3],
    intCol "YearsSinceLastPromotion" [1],
    intCol "YearsWithCurrManager" [2] ]

/- ### Lemmas about substring occurrence -/

theorem data_append (a b : String) : (a ++ b).data = a.data ++ b.data := by
  cases a
  cases b
  rfl

theorem strMentions_refl (s : String) : strMentions s s :=
  ⟨[], [], by simp⟩

theorem strMentions_append_left (a : String) {b n : String} (h : strMentions b n) :
    strMentions (a ++ b) n := by
  obtain ⟨p, q, hpq⟩ := h
  exact ⟨a.data ++ p, q, by simp [data_append, hpq]⟩

theorem strMentions_append_right {a n : String} (b : String) (h : strMentions a n) :
    strMentions (a ++ b) n := by
  obtain ⟨p, q, hpq⟩ := h
  exact ⟨p, q ++ b.data, by simp [data_append, hpq]⟩

theorem strMentions_compose {a b c : String} (hab : strMentions a b) (hbc : strMentions b c) :
    strMentions a c := by
  obtain ⟨p, q, hpq⟩ := hab
  obtain ⟨p2, q2, hpq2⟩ := hbc
  exact ⟨p ++ p2, q2 ++ q, by rw [hpq, hpq2]; simp⟩

theorem strMentions_of_mem_joinWith (sep : String) {s : String} {l : List String} (h : s ∈ l) :
    strMentions (joinWith sep l) s := by
  induction l with
  | nil => cases h
  | cons a t ih =>
    cases t with
    | nil =>
      have hs : s = a := by simpa using h
      subst hs
      exact strMentions_refl s
    | cons b t2 =>
      rcases List.mem_cons.mp h with h1 | h2
      · subst h1
        exact strMentions_append_right _ (strMentions_append_right sep (strMentions_refl s))
      · exact strMentions_append_left (a ++ sep) (ih h2)

theorem strMentions_pyStrList {c : String} {xs : List String} (h : c ∈ xs) :
    strMentions (pyStrList xs) c := by
  have h1 : (squote ++ c ++ squote) ∈ xs.map (fun s => squote ++ s ++ squote) :=
    List.mem_map_of_mem _ h
  have h2 := strMentions_of_mem_joinWith ", " h1
  have h3 : strMentions (squote ++ c ++ squote) c :=
    strMentions_append_right squote (strMentions_append_left squote (strMentions_refl c))
  exact strMentions_append_right "]" (strMentions_append_left "[" (strMentions_compose h2 h3))

/- ### Structural lemmas about the validator -/

theorem presence_msg_mem {sch : DataSchema} {df : Frame} (h : requiredMissing sch df ≠ []) :
    ("Missing required columns: " ++ pyStrList (requiredMissing sch df)) ∈
      validationErrors sch df := by
  unfold validationErrors presenceErrors
  rw [if_neg h]
  exact List.mem_append_left _ (List.mem_singleton_self _)

theorem colErrors_mem_validationErrors {sch : DataSchema} {df : Frame}
    {p : String × ColumnDefinition} (hp : p ∈ sch.columns) {msg : String}
    (hm : msg ∈ colErrors df p) : msg ∈ validationErrors sch df := by
  refine List.mem_append_right _ ?_
  unfold perColumnErrors
  rw [List.mem_flatten]
  exact ⟨colErrors df p, List.mem_map_of_mem _ hp, hm⟩

theorem foldl_dedup_ne_nil {α : Type} [DecidableEq α] (l : List α) (acc : List α)
    (h : acc ≠ []) :
    l.foldl (fun acc x => if x ∈ acc then acc else acc ++ [x]) acc ≠ [] := by
  induction l generalizing acc with
  | nil => exact h
  | cons y ys ih =>
    simp only [List.foldl_cons]
    apply ih
    by_cases hy : y ∈ acc
    · rw [if_pos hy]; exact h
    · rw [if_neg hy]; simp

theorem uniqueFirst_ne_nil {α : Type} [DecidableEq α] {l : List α} (h : l ≠ []) :
    uniqueFirst l ≠ [] := by
  cases l with
  | nil => exact absurd rfl h
  | cons x xs =>
    unfold uniqueFirst
    simp only [List.foldl_cons]
    apply foldl_dedup_ne_nil
    simp

theorem strMentions_column_msg (name a b : String) :
    strMentions ("Column " ++ name ++ a ++ b) name :=
  strMentions_append_right b (strMentions_append_right a
    (strMentions_append_left "Column " (strMentions_refl name)))

theorem error_of_colError {sch : DataSchema} {df : Frame} {p : String × ColumnDefinition}
    (hp : p ∈ sch.columns) {msg : String} (hm : msg ∈ colErrors df p)
    (hmen : strMentions msg p.1) :
    ∃ e, validate_dataframe sch df = Except.error e ∧ strMentions e p.1 := by
  have h1 := colErrors_mem_validationErrors hp hm
  have hne := List.ne_nil_of_mem h1
  refine ⟨joinLines (validationErrors sch df), by simp [validate_dataframe, hne], ?_⟩
  exact strMentions_compose (strMentions_of_mem_joinWith "\n" h1) hmen

/- ### Claim C1 -/

/-- C1: `validate_dataframe` aggregates every violation (presence, type,
domain, range) instead of stopping at the first: with an empty violation
list it returns success, with a non-empty one it raises a single error
whose message is the newline-join of all violation messages, and every
missing required column is mentioned within that single message. -/
theorem validate_aggregates_all_violations (sch : DataSchema) (df : Frame) :
    (validationErrors sch df = [] → validate_dataframe sch df = Except.ok true) ∧
    (validationErrors sch df ≠ [] →
      validate_dataframe sch df = Except.error (joinLines (validationErrors sch df))) ∧
    (∀ c ∈ requiredMissing sch df, strMentions (joinLines (validationErrors sch df)) c) := by
  refine ⟨fun h => ?_, fun h => ?_, fun c hc => ?_⟩
  · simp [validate_dataframe, h]
  · simp [validate_dataframe, h]
  · have hne : requiredMissing sch df ≠ [] := List.ne_nil_of_mem hc
    have h1 := strMentions_of_mem_joinWith "\n" (presence_msg_mem hne)
    exact strMentions_compose h1 (strMentions_append_left _ (strMentions_pyStrList hc))

theorem validate_aggregates_witness :
    "Age" ∈ requiredMissing HR_SCHEMA emptyFrame ∧
    strMentions (joinLines (validationErrors HR_SCHEMA emptyFrame)) "Age" :=
  ⟨by decide, (validate_aggregates_all_violations HR_SCHEMA emptyFrame).2.2 "Age" (by decide)⟩

/- ### Claim C4 -/

/-- C4 as stated is false: a table missing 21 required columns yields a
single aggregated presence entry in the violation list, not one entry
per missing column. -/
theorem presence_not_one_entry_each :
    (requiredMissing HR_SCHEMA emptyFrame).length = 21 ∧
    (validationErrors HR_SCHEMA emptyFrame).length = 1 := by decide

/-- C4 amended: when required columns are absent, the validator emits one
single aggregated presence entry — the head of the violation list — that
names every missing required column inside one message. -/
theorem missing_required_single_aggregated_entry (sch : DataSchema) (df : Frame)
    (h : requiredMissing sch df ≠ []) :
    validationErrors sch df =
      ("Missing required columns: " ++ pyStrList (requiredMissing sch df)) ::
        perColumnErrors sch df ∧
    ∀ c ∈ requiredMissing sch df,
      strMentions ("Missing required columns: " ++ pyStrList (requiredMissing sch df)) c := by
  constructor
  · unfold validationErrors presenceErrors
    rw [if_neg h]
    rfl
  · exact fun c hc => strMentions_append_left _ (strMentions_pyStrList hc)

theorem missing_required_single_entry_witness :
    requiredMissing HR_SCHEMA emptyFrame ≠ [] ∧
    validationErrors HR_SCHEMA emptyFrame =
      ("Missing required columns: " ++ pyStrList (requiredMissing HR_SCHEMA emptyFrame)) ::
        perColumnErrors HR_SCHEMA emptyFrame :=
  ⟨by decide, (missing_required_single_aggregated_entry HR_SCHEMA emptyFrame (by decide)).1⟩

/- ### Claim C10 -/

/-- C10: a missing cell in a column carrying an allowed-value list is
never a member of that list, so `validate_dataframe` fails on any table
with a null in an enumerated column, reporting that column among the
invalid-value violations. -/
theorem null_rejected_by_domain_check (sch : DataSchema) (df : Frame)
    (name : String) (defn : ColumnDefinition) (av : List Val)
    (hp : (name, defn) ∈ sch.columns) (hav : defn.allowed_values = some av)
    (hnull : none ∈ colVals df name) :
    (("Column " ++ name ++ " contains invalid values: " ++
        pyValsList (offendingValues (colVals df name) av)) ∈ validationErrors sch df) ∧
    (∃ e, validate_dataframe sch df = Except.error e ∧ strMentions e name) := by
  cases hfd : findCol df name with
  | none =>
    rw [show colVals df name = [] from by simp [colVals, hfd]] at hnull
    cases hnull
  | some c =>
    have hvals : colVals df name = c.vals := by simp [colVals, hfd]
    rw [hvals] at hnull
    have hbadmem : none ∈ c.vals.filter (fun e => !(isinList e av)) :=
      List.mem_filter.mpr ⟨hnull, by simp [isinList]⟩
    have hoff : offendingValues c.vals av ≠ [] :=
      uniqueFirst_ne_nil (List.ne_nil_of_mem hbadmem)
    have hmsg : ("Column " ++ name ++ " contains invalid values: " ++
        pyValsList (offendingValues c.vals av)) ∈ domainErrors df name defn := by
      unfold domainErrors
      rw [hav, hfd]
      dsimp only
      rw [if_neg hoff]
      exact List.mem_singleton_self _
    have hcol : hasCol df name = true := by simp [hasCol, hfd]
    have hce : ("Column " ++ name ++ " contains invalid values: " ++
        pyValsList (offendingValues c.vals av)) ∈ colErrors df (name, defn) := by
      unfold colErrors
      rw [if_pos hcol]
      exact List.mem_append_left _ (List.mem_append_right _ hmsg)
    refine ⟨hvals ▸ colErrors_mem_validationErrors hp hce, ?_⟩
    exact error_of_colError hp hce (strMentions_column_msg name _ _)

/-- A one-column frame whose enumerated `Department` column has a missing
cell in its second row. -/
def nullDeptFrame : Frame :=
  [{ name := "Department", dtype := Dtype.objectD,
     vals := [some (Val.str "IT"), none] }]

/-- The `Department` definition of `HR_SCHEMA`. -/
def deptDefn : ColumnDefinition :=
  { name := "Department", type := .STRING,
    allowed_values := some (strVals ["IT", "HR", "Finance", "Marketing",
      "Operations", "Sales", "Research", "Engineering"]) }

theorem null_rejected_witness :
    ("Column " ++ "Department" ++ " contains invalid values: " ++
      pyValsList (offendingValues (colVals nullDeptFrame "Department")
        (strVals ["IT", "HR", "Finance", "Marketing",
          "Operations", "Sales", "Research", "Engineering"]))) ∈
      validationErrors HR_SCHEMA nullDeptFrame :=
  (null_rejected_by_domain_check HR_SCHEMA nullDeptFrame "Department" deptDefn
    (strVals ["IT", "HR", "Finance", "Marketing",
      "Operations", "Sales", "Research", "Engineering"])
    (by decide) (by decide) (by decide)).1

/- ### Claim C5 -/

theorem minErrors_mem {df : Frame} {name : String} {defn : ColumnDefinition}
    {m : Rat} {c : Col} (hmin : defn.min_value = some m) (hfd : findCol df name = some c)
    (hb : numsBelow c.vals m = true) :
    ("Column " ++ name ++ " contains values below minimum " ++ ratText m) ∈
      minErrors df name defn := by
  unfold minErrors
  rw [hmin, hfd]
  dsimp only
  rw [if_pos hb]
  exact List.mem_singleton_self _

theorem maxErrors_mem {df : Frame} {name : String} {defn : ColumnDefinition}
    {M : Rat} {c : Col} (hmax : defn.max_value = some M) (hfd : findCol df name = some c)
    (hb : numsAbove c.vals M = true) :
    ("Column " ++ name ++ " contains values above maximum " ++ ratText M) ∈
      maxErrors df name defn := by
  unfold maxErrors
  rw [hmax, hfd]
  dsimp only
  rw [if_pos hb]
  exact List.mem_singleton_self _

/-- C5: for Integer/Float specs with bounds, validation fails (with an
error mentioning the column) whenever some value lies strictly outside a
set bound, emits at most one violation per bound direction, passes the
range check when all values are inside the bounds inclusive — and
concretely, a table with `Age = 15` against the HR schema's minimum of
18 raises exactly the below-minimum error for `Age`. -/
theorem range_bounds_enforced :
    (∀ (sch : DataSchema) (df : Frame) (name : String) (defn : ColumnDefinition),
      (name, defn) ∈ sch.columns →
      hasCol df name = true →
      (defn.type = ColumnType.INTEGER ∨ defn.type = ColumnType.FLOAT) →
      ((∀ m, defn.min_value = some m → numsBelow (colVals df name) m = false) →
        (∀ M, defn.max_value = some M → numsAbove (colVals df name) M = false) →
        rangeErrors df name defn = []) ∧
      ((minErrors df name defn).length ≤ 1 ∧ (maxErrors df name defn).length ≤ 1) ∧
      (((∃ m, defn.min_value = some m ∧ numsBelow (colVals df name) m = true) ∨
        (∃ M, defn.max_value = some M ∧ numsAbove (colVals df name) M = true)) →
        ∃ e, validate_dataframe sch df = Except.error e ∧ strMentions e name)) ∧
    validate_dataframe HR_SCHEMA age15Frame =
      Except.error "Column Age contains values below minimum 18" ∧
    strMentions "Column Age contains values below minimum 18" "Age" := by
  refine ⟨fun sch df name defn hp hcol hty => ?_, by rfl, ?_⟩
  · obtain ⟨c, hfd⟩ := Option.isSome_iff_exists.mp hcol
    have hvals : colVals df name = c.vals := by simp [colVals, hfd]
    refine ⟨fun hlo hhi => ?_, ⟨?_, ?_⟩, fun hviol => ?_⟩
    · unfold rangeErrors
      rw [if_pos hty]
      have h1 : minErrors df name defn = [] := by
        unfold minErrors
        cases hm : defn.min_value with
        | none => rfl
        | some m =>
          rw [hfd]
          dsimp only
          rw [if_neg ?_]
          simp [hvals ▸ hlo m hm]
      have h2 : maxErrors df name defn = [] := by
        unfold maxErrors
        cases hM : defn.max_value with
        | none => rfl
        | some M =>
          rw [hfd]
          dsimp only
          rw [if_neg ?_]
          simp [hvals ▸ hhi M hM]
      rw [h1, h2]
      rfl
    · unfold minErrors
      cases defn.min_value <;> cases findCol df name <;> dsimp only <;> first
        | simp
        | (split <;> simp)
    · unfold maxErrors
      cases defn.max_value <;> cases findCol df name <;> dsimp only <;> first
        | simp
        | (split <;> simp)
    · have hmem : ∃ msg ∈ rangeErrors df name defn, strMentions msg name := by
        rcases hviol with ⟨m, hm, hb⟩ | ⟨M, hM, hb⟩
        · rw [hvals] at hb
          have hin : ("Column " ++ name ++ " contains values below minimum " ++ ratText m) ∈
              rangeErrors df name defn := by
            unfold rangeErrors
            rw [if_pos hty]
            exact List.mem_append_left _ (minErrors_mem hm hfd hb)
          exact ⟨_, hin, strMentions_column_msg name _ _⟩
        · rw [hvals] at hb
          have hin : ("Column " ++ name ++ " contains values above maximum " ++ ratText M) ∈
              rangeErrors df name defn := by
            unfold rangeErrors
            rw [if_pos hty]
            exact List.mem_append_right _ (maxErrors_mem hM hfd hb)
          exact ⟨_, hin, strMentions_column_msg name _ _⟩
      obtain ⟨msg, hmsg, hmen⟩ := hmem
      have hce : msg ∈ colErrors df (name, defn) := by
        unfold colErrors
        rw [if_pos hcol]
        dsimp only
        exact List.mem_append_right _ hmsg
      exact error_of_colError hp hce hmen
  · have : strMentions ("Column " ++ "Age" ++ " contains values below minimum " ++ "18") "Age" :=
      strMentions_column_msg "Age" _ _
    exact this

theorem range_bounds_witness :
    hasCol age15Frame "Age" = true ∧
    (∃ e, validate_dataframe HR_SCHEMA age15Frame = Except.error e ∧ strMentions e "Age") := by
  refine ⟨by decide, ?_⟩
  refine (range_bounds_enforced.1 HR_SCHEMA age15Frame "Age"
    { name := "Age", type := .INTEGER, min_value := some 18, max_value := some 100 }
    (by decide) (by decide) (Or.inl rfl)).2.2 (Or.inl ⟨18, rfl, by decide⟩)

/- ### Name-based frame lemmas -/

theorem findCol_of_mem_nodup {df : Frame} {c : Col}
    (hnd : (df.map Col.name).Nodup) (hc : c ∈ df) : findCol df c.name = some c := by
  induction df with
  | nil => cases hc
  | cons d t ih =>
    rcases List.mem_cons.mp hc with h1 | h2
    · subst h1
      simp [findCol]
    · have hd : c.name ∈ t.map Col.name := List.mem_map_of_mem _ h2
      have hdn : d.name ∉ t.map Col.name := (List.nodup_cons.mp hnd).1
      have hne2 : (d.name == c.name) = false := by
        rw [beq_eq_false_iff_ne]
        intro he
        exact hdn (he ▸ hd)
      unfold findCol
      rw [List.find?_cons, hne2]
      exact ih (List.nodup_cons.mp hnd).2 h2

theorem hasCol_iff_mem_names {df : Frame} {nm : String} :
    hasCol df nm = true ↔ nm ∈ df.map Col.name := by
  unfold hasCol findCol
  rw [Option.isSome_iff_exists]
  constructor
  · rintro ⟨c, hc⟩
    have hmem := List.mem_of_find?_eq_some hc
    have heq : c.name = nm := by
      have := List.find?_some hc
      exact eq_of_beq this
    exact heq ▸ List.mem_map_of_mem _ hmem
  · intro hm
    obtain ⟨c, hc, hcn⟩ := List.mem_map.mp hm
    have : (List.find? (fun col => col.name == nm) df).isSome = true := by
      rw [List.find?_isSome]
      exact ⟨c, hc, by simp [hcn]⟩
    exact Option.isSome_iff_exists.mp this

theorem fillnaFrameMean_names (df : Frame) :
    (fillnaFrameMean df).map Col.name = df.map Col.name := by
  unfold fillnaFrameMean
  rw [List.map_map]
  apply List.map_congr_left
  intro c _
  by_cases h : meanApplies c.dtype = true
  · simp [h, fillCol]
  · simp [h]

/- ### Claim C2 -/

/-- C2: `preprocess_data` expands every object-dtype column other than
`Attrition` (and the dropped date columns) into one indicator column per
distinct observed value except the first in sorted order, named
`name_value`; concretely on the specification's 5-row table the output
has `Department_HR` and `Department_IT`, lacks `Department_Finance`
(first in sorted order, dropped), leaves `Age` unchanged, and has no
missing cells anywhere. -/
theorem categorical_expansion :
    (∀ (df : Frame) (c : Col),
      (df.map Col.name).Nodup → c ∈ df →
      c.dtype = Dtype.objectD → c.name ≠ "Attrition" →
      c.name ≠ "HireDate" → c.name ≠ "TerminationDate" →
      ∀ v ∈ (sortedDistinct c.vals).drop 1,
        hasCol (preprocess_data df) (c.name ++ "_" ++ dummyText v) = true) ∧
    hasCol (preprocess_data sample5) "Department_HR" = true ∧
    hasCol (preprocess_data sample5) "Department_IT" = true ∧
    hasCol (preprocess_data sample5) "Department_Finance" = false ∧
    colVals (preprocess_data sample5) "Age" = colVals sample5 "Age" ∧
    frameMissing (preprocess_data sample5) = 0 := by
  refine ⟨?_, by decide, by decide, by decide, by decide, by decide⟩
  intro df c hnd hc hdt hatt hhd htd v hv
  simp only [preprocess_data]
  have hP : (!decide (c.name = "HireDate" ∨ c.name = "TerminationDate")) = true := by
    simp [hhd, htd]
  have hcD : c ∈ df.filter (fun c => !decide (c.name = "HireDate" ∨ c.name = "TerminationDate")) :=
    List.mem_filter.mpr ⟨hc, hP⟩
  set dfD := df.filter (fun c => !decide (c.name = "HireDate" ∨ c.name = "TerminationDate"))
    with hdfD
  have hndD : (dfD.map Col.name).Nodup :=
    hnd.sublist ((List.filter_sublist df).map Col.name)
  have hQ : (decide (c.dtype = Dtype.objectD) && decide (c.name ≠ "Attrition")) = true := by
    simp [hdt, hatt]
  have hcQ : c ∈ dfD.filter (fun c => decide (c.dtype = Dtype.objectD) && decide (c.name ≠ "Attrition")) :=
    List.mem_filter.mpr ⟨hcD, hQ⟩
  set cats := (dfD.filter (fun c => decide (c.dtype = Dtype.objectD) && decide (c.name ≠ "Attrition"))).map
    Col.name with hcats
  have hnc : c.name ∈ cats := List.mem_map_of_mem _ hcQ
  have hfd : findCol dfD c.name = some c := findCol_of_mem_nodup hndD hcD
  have htv : dummyColFor c v ∈ dummyCols c := by
    unfold dummyCols
    exact List.mem_map_of_mem _ hv
  have hls : dummyCols c ∈ cats.map (fun n => ((findCol dfD n).map dummyCols).getD []) := by
    have h0 := List.mem_map_of_mem (fun n => ((findCol dfD n).map dummyCols).getD []) hnc
    dsimp only at h0
    rw [hfd] at h0
    simpa using h0
  have hmemY : dummyColFor c v ∈ get_dummies dfD cats := by
    unfold get_dummies
    exact List.mem_append_right _ (List.mem_flatten.mpr ⟨dummyCols c, hls, htv⟩)
  have hname : (c.name ++ "_" ++ dummyText v) ∈ (get_dummies dfD cats).map Col.name :=
    List.mem_map_of_mem _ hmemY
  have hgoal : hasCol (fillnaFrameMean (get_dummies dfD cats)) (c.name ++ "_" ++ dummyText v) = true := by
    rw [hasCol_iff_mem_names, fillnaFrameMean_names]
    exact hname
  exact hgoal

theorem categorical_expansion_witness :
    hasCol (preprocess_data sample5) ("Department" ++ "_" ++ "HR") = true := by
  have hmem : Val.str "HR" ∈ (sortedDistinct (strCol "Department" ["IT", "HR", "IT", "Finance", "HR"]).vals).drop 1 := by decide
  exact categorical_expansion.1 sample5 (strCol "Department" ["IT", "HR", "IT", "Finance", "HR"])
    (by decide) (by decide) (by decide) (by decide) (by decide) (by decide) (Val.str "HR") hmem

/- ### Claim C9 -/

theorem colMissing_eq_zero_iff {c : Col} : colMissing c = 0 ↔ none ∉ c.vals :=
  List.count_eq_zero

theorem frameMissing_eq_zero_iff {df : Frame} :
    frameMissing df = 0 ↔ ∀ c ∈ df, colMissing c = 0 := by
  unfold frameMissing
  rw [List.sum_eq_zero_iff]
  constructor
  · intro h c hc
    exact h _ (List.mem_map_of_mem _ hc)
  · intro h x hx
    obtain ⟨c, hc, rfl⟩ := List.mem_map.mp hx
    exact h c hc

theorem none_not_mem_map_fillEntry {vals : List (Option Val)} {r : Option Val}
    (h : none ∉ vals) : none ∉ vals.map (fillEntry r) := by
  intro hm
  obtain ⟨e, he, heq⟩ := List.mem_map.mp hm
  cases e with
  | none => exact h he
  | some v => simp [fillEntry] at heq

theorem colMissing_dummy_zero {c0 : Col} {y : Col} (hy : y ∈ dummyCols c0) :
    colMissing y = 0 := by
  rw [colMissing_eq_zero_iff]
  unfold dummyCols at hy
  obtain ⟨v, _, rfl⟩ := List.mem_map.mp hy
  intro hm
  obtain ⟨e, _, heq⟩ := List.mem_map.mp hm
  cases heq

theorem preprocess_data_no_missing {df : Frame} (h : frameMissing df = 0) :
    frameMissing (preprocess_data df) = 0 := by
  rw [frameMissing_eq_zero_iff] at h ⊢
  intro c' hc'
  unfold preprocess_data fillnaFrameMean at hc'
  obtain ⟨y, hy, rfl⟩ := List.mem_map.mp hc'
  have hy0 : colMissing y = 0 := by
    unfold get_dummies at hy
    rcases List.mem_append.mp hy with h1 | h2
    · exact h y (List.mem_of_mem_filter (List.mem_of_mem_filter h1))
    · obtain ⟨ls, hls, hyls⟩ := List.mem_flatten.mp h2
      obtain ⟨n, _, rfl⟩ := List.mem_map.mp hls
      cases hfd : findCol (df.filter fun c =>
          !decide (c.name = "HireDate" ∨ c.name = "TerminationDate")) n with
      | none =>
        rw [hfd] at hyls
        cases hyls
      | some c0 =>
        rw [hfd] at hyls
        exact colMissing_dummy_zero hyls
  by_cases hm : meanApplies y.dtype = true
  · rw [if_pos hm]
    rw [colMissing_eq_zero_iff] at hy0 ⊢
    exact none_not_mem_map_fillEntry hy0
  · rw [if_neg hm]
    exact hy0

/-- C9: applying the transform a second time to an already-transformed
table whose missing-value counts are zero keeps every missing-value
count at zero — no missing values are reintroduced. -/
theorem transform_idempotent_no_missing (t : Frame)
    (h : frameMissing (preprocess_data t) = 0) :
    frameMissing (preprocess_data (preprocess_data t)) = 0 :=
  preprocess_data_no_missing h

theorem transform_idempotent_witness :
    frameMissing (preprocess_data sample5) = 0 ∧
    frameMissing (preprocess_data (preprocess_data sample5)) = 0 :=
  ⟨by decide, transform_idempotent_no_missing sample5 (by decide)⟩

/- ### Claim C3 -/

/-- A one-column frame: a schema-numeric column with values 1, 2, 10 and
one missing cell. -/
def ageGapFrame : Frame :=
  [{ name := "Age", dtype := Dtype.float64,
     vals := [some (Val.num 1), some (Val.num 2), some (Val.num 10), none] }]

/-- A one-column frame: a Text column with a missing cell. -/
def attrGapFrame : Frame :=
  [{ name := "Attrition", dtype := Dtype.objectD,
     vals := [some (Val.str "No"), some (Val.str "Yes"), none] }]

/-- A one-column frame: a Text column with a mode tie ("Male" first in
row order, "Female" first in sort order) and a missing cell. -/
def genderTieFrame : Frame :=
  [{ name := "Gender", dtype := Dtype.objectD,
     vals := [some (Val.str "Male"), some (Val.str "Female"), some (Val.str "Male"),
              some (Val.str "Female"), none] }]

/-- C3 as stated fails on the code: the base agent's missing-value step
fills a missing numeric cell with the column median (2), not the
arithmetic mean (13/3); the loader's missing-value step leaves a missing
Text cell missing; and a mode tie resolves to the sorted-first value
("Female"), not the first value in row order ("Male"). -/
theorem imputation_claim_counterexample :
    (colVals (baFillMissing ageGapFrame) "Age").getD 3 none = some (Val.num 2) ∧
    colMean (colVals ageGapFrame "Age") = some (Val.num (mkRat 13 3)) ∧
    (some (Val.num 2) : Option Val) ≠ some (Val.num (mkRat 13 3)) ∧
    (colVals (dlFillNumericMean (dl_numeric_cols HR_SCHEMA) attrGapFrame) "Attrition").getD 2
      (some (Val.num 0)) = none ∧
    (colVals (baFillMissing genderTieFrame) "Gender").getD 4 none = some (Val.str "Female") ∧
    (colVals genderTieFrame "Gender").getD 0 none = some (Val.str "Male") := by decide

theorem config_lists_disjoint :
    ∀ n ∈ config_categorical_columns, n ∉ config_numeric_columns := by decide

theorem colVals_map_of_mem {df : Frame} {c : Col} {g : Col → Col}
    (hg : ∀ x, (g x).name = x.name) (hnd : (df.map Col.name).Nodup) (hc : c ∈ df) :
    colVals (df.map g) c.name = (g c).vals := by
  have hnames : (df.map g).map Col.name = df.map Col.name := by
    rw [List.map_map]
    exact List.map_congr_left (fun x _ => hg x)
  have hnd' : ((df.map g).map Col.name).Nodup := by rw [hnames]; exact hnd
  have hfc := findCol_of_mem_nodup hnd' (List.mem_map_of_mem g hc)
  rw [hg c] at hfc
  simp [colVals, hfc]

/-- C3 amended: the imputation behaviour is split across the two
implementations.  The loader's step fills each missing cell of a
schema-numeric column with that column's arithmetic mean over the
non-missing cells and leaves every other column — in particular every
Text column — unimputed; the base agent's step fills missing cells of
configured numeric columns with the column median, and missing cells of
configured categorical (Text) columns with the column mode, ties
resolving to the smallest value in sorted order. -/
theorem imputation_as_implemented (df : Frame) (c : Col)
    (hnd : (df.map Col.name).Nodup) (hc : c ∈ df) :
    (c.name ∈ dl_numeric_cols HR_SCHEMA →
      colVals (dlFillNumericMean (dl_numeric_cols HR_SCHEMA) df) c.name
        = c.vals.map (fillEntry (colMean c.vals))) ∧
    (c.name ∉ dl_numeric_cols HR_SCHEMA →
      colVals (dlFillNumericMean (dl_numeric_cols HR_SCHEMA) df) c.name = c.vals) ∧
    (c.name ∈ config_numeric_columns → hasNullCol c = true →
      colVals (baFillMissing df) c.name = c.vals.map (fillEntry (colMedian c.vals))) ∧
    (c.name ∈ config_categorical_columns → hasNullCol c = true →
      colVals (baFillMissing df) c.name = c.vals.map (fillEntry (colModeFirst c.vals))) := by
  have hgdl : ∀ x : Col, ((fun x => if (dl_numeric_cols HR_SCHEMA).contains x.name then
      fillCol x (colMean x.vals) else x) x).name = x.name := by
    intro x
    dsimp only
    split
    · rfl
    · rfl
  have hgba : ∀ x : Col, ((fun x =>
      if config_numeric_columns.contains x.name && hasNullCol x then
        fillCol x (colMedian x.vals)
      else if config_categorical_columns.contains x.name && hasNullCol x then
        fillCol x (colModeFirst x.vals)
      else x) x).name = x.name := by
    intro x
    dsimp only
    split
    · rfl
    · split
      · rfl
      · rfl
  have hdl := colVals_map_of_mem hgdl hnd hc
  have hba := colVals_map_of_mem hgba hnd hc
  refine ⟨fun hmem => ?_, fun hmem => ?_, fun hmem hnull => ?_, fun hmem hnull => ?_⟩
  · have hcont : (dl_numeric_cols HR_SCHEMA).contains c.name = true :=
      List.elem_eq_true_of_mem hmem
    unfold dlFillNumericMean
    rw [hdl]
    simp [hcont, hmem, fillCol]
  · have hcont : (dl_numeric_cols HR_SCHEMA).contains c.name = false := by
      cases hh : (dl_numeric_cols HR_SCHEMA).contains c.name
      · rfl
      · exact absurd (List.mem_of_elem_eq_true hh) hmem
    unfold dlFillNumericMean
    rw [hdl]
    simp [hcont, hmem]
  · have hcont : config_numeric_columns.contains c.name = true :=
      List.elem_eq_true_of_mem hmem
    unfold baFillMissing
    rw [hba]
    simp [hcont, hmem, hnull, fillCol]
  · have hmemnum : c.name ∉ config_numeric_columns :=
      fun hm => config_lists_disjoint c.name hmem hm
    have hnum : config_numeric_columns.contains c.name = false := by
      cases hh : config_numeric_columns.contains c.name
      · rfl
      · exact absurd (List.mem_of_elem_eq_true hh) hmemnum
    have hcat : config_categorical_columns.contains c.name = true :=
      List.elem_eq_true_of_mem hmem
    unfold baFillMissing
    rw [hba]
    simp [hnum, hcat, hmem, hmemnum, hnull, fillCol]

theorem imputation_as_implemented_witness :
    "Age" ∈ config_numeric_columns ∧
    colVals (baFillMissing ageGapFrame) "Age" =
      [some (Val.num 1), some (Val.num 2), some (Val.num 10), none].map
        (fillEntry (colMedian [some (Val.num 1), some (Val.num 2), some (Val.num 10), none])) :=
  ⟨by decide,
    (imputation_as_implemented ageGapFrame
      { name := "Age", dtype := Dtype.float64,
        vals := [some (Val.num 1), some (Val.num 2), some (Val.num 10), none] }
      (by decide) (by decide)).2.2.1 (by decide) (by decide)⟩

/- ### Claim C6 -/

/-- C6: the artifact triple is all-or-nothing — loading yields a triple
exactly when all three blobs are present and loadable — and when the
triple is absent, `predict_attrition` falls back to training on the
current request's frame and predicting with the fresh triple, surfacing
no error. -/
theorem artifact_triple_all_or_nothing (st : ArtifactStore)
    (trainFn : Frame → Model × Scaler × List String) (df : Frame) :
    ((load_artifacts st).isSome =
      (st.modelBlob.isSome && st.scalerBlob.isSome && st.featuresBlob.isSome)) ∧
    (load_artifacts st = none →
      predict_attrition st trainFn df =
        predict_with (trainFn df).1 (trainFn df).2.1 (trainFn df).2.2 df) := by
  constructor
  · cases hm : st.modelBlob <;> cases hs : st.scalerBlob <;> cases hf : st.featuresBlob <;>
      simp [load_artifacts, hm, hs, hf]
  · intro h
    simp [predict_attrition, h]

/-- A constant classifier scoring every row one half. -/
def constModel : Model :=
  { proba := fun _ => mkRat 1 2,
    proba_range := fun _ => by dsimp only; exact ⟨by decide, by decide⟩ }

/-- The identity scaler. -/
def idScaler : Scaler := { transformRow := id }

/-- A store with every blob absent. -/
def emptyStore : ArtifactStore := { modelBlob := none, scalerBlob := none, featuresBlob := none }

/-- A constant training capability. -/
def constTrain : Frame → Model × Scaler × List String :=
  fun _ => (constModel, idScaler, ["Age"])

theorem artifact_triple_witness :
    load_artifacts emptyStore = none ∧
    predict_attrition emptyStore constTrain sample5 =
      predict_with (constTrain sample5).1 (constTrain sample5).2.1 (constTrain sample5).2.2
        sample5 :=
  ⟨rfl, (artifact_triple_all_or_nothing emptyStore constTrain sample5).2 rfl⟩

/- ### Claim C7 -/

theorem eq_of_name_eq_nodup {df : Frame} {a b : Col} (hnd : (df.map Col.name).Nodup)
    (ha : a ∈ df) (hb : b ∈ df) (heq : a.name = b.name) : a = b := by
  have h1 := findCol_of_mem_nodup hnd ha
  have h2 := findCol_of_mem_nodup hnd hb
  rw [heq, h2] at h1
  exact (Option.some_inj.mp h1).symm

theorem dummy_vals_length (c0 : Col) {y : Col} (hy : y ∈ dummyCols c0) :
    y.vals.length = c0.vals.length := by
  unfold dummyCols at hy
  obtain ⟨v, _, rfl⟩ := List.mem_map.mp hy
  simp [dummyColFor]

theorem preprocess_rectangular {df : Frame} {n : Nat} (h : Rectangular df n) :
    Rectangular (preprocess_data df) n := by
  intro c' hc'
  unfold preprocess_data fillnaFrameMean at hc'
  obtain ⟨y, hy, rfl⟩ := List.mem_map.mp hc'
  have hy0 : y.vals.length = n := by
    unfold get_dummies at hy
    rcases List.mem_append.mp hy with h1 | h2
    · exact h y (List.mem_of_mem_filter (List.mem_of_mem_filter h1))
    · obtain ⟨ls, hls, hyls⟩ := List.mem_flatten.mp h2
      obtain ⟨nm, _, rfl⟩ := List.mem_map.mp hls
      cases hfd : findCol (df.filter fun c =>
          !decide (c.name = "HireDate" ∨ c.name = "TerminationDate")) nm with
      | none =>
        rw [hfd] at hyls
        cases hyls
      | some c0 =>
        rw [hfd] at hyls
        have hc0 : c0 ∈ df := List.mem_of_mem_filter (List.mem_of_find?_eq_some hfd)
        rw [dummy_vals_length c0 hyls]
        exact h c0 hc0
  by_cases hm : meanApplies y.dtype = true
  · rw [if_pos hm]
    simp [fillCol, hy0]
  · rw [if_neg hm]
    exact hy0

theorem nrows_of_rect {df : Frame} {n : Nat} (hne : df ≠ []) (h : Rectangular df n) :
    nrows df = n := by
  cases df with
  | nil => exact absurd rfl hne
  | cons c t => simpa [nrows] using h c (List.mem_cons_self c t)

theorem preprocess_nonempty {df : Frame} (hnd : (df.map Col.name).Nodup)
    {c : Col} (hc : c ∈ df) (hname : c.name = "EmployeeNumber")
    (hdt : c.dtype = Dtype.int64) : preprocess_data df ≠ [] := by
  simp only [preprocess_data]
  have hP : (!decide (c.name = "HireDate" ∨ c.name = "TerminationDate")) = true := by
    simp [hname]
  have hcD : c ∈ df.filter (fun c => !decide (c.name = "HireDate" ∨ c.name = "TerminationDate")) :=
    List.mem_filter.mpr ⟨hc, hP⟩
  set dfD := df.filter (fun c => !decide (c.name = "HireDate" ∨ c.name = "TerminationDate"))
    with hdfD
  have hndD : (dfD.map Col.name).Nodup :=
    hnd.sublist ((List.filter_sublist df).map Col.name)
  set cats := (dfD.filter (fun c => decide (c.dtype = Dtype.objectD) && decide (c.name ≠ "Attrition"))).map
    Col.name with hcats
  have hnotcats : cats.contains c.name = false := by
    cases hh : cats.contains c.name with
    | false => rfl
    | true =>
      exfalso
      obtain ⟨c2, hc2, hc2n⟩ := List.mem_map.mp (List.mem_of_elem_eq_true hh)
      have hc2D : c2 ∈ dfD := List.mem_of_mem_filter hc2
      have hq := (List.mem_filter.mp hc2).2
      have hdt2 : c2.dtype = Dtype.objectD := by
        simp only [Bool.and_eq_true, decide_eq_true_eq] at hq
        exact hq.1
      have hceq : c2 = c := eq_of_name_eq_nodup hndD hc2D hcD hc2n
      rw [hceq, hdt] at hdt2
      cases hdt2
  have hninc : c.name ∉ cats := by
    intro hm
    have h' : List.elem c.name cats = false := hnotcats
    rw [List.elem_eq_true_of_mem hm] at h'
    cases h'
  have hcY : c ∈ get_dummies dfD cats := by
    unfold get_dummies
    exact List.mem_append_left _ (List.mem_filter.mpr ⟨hcD, by simpa using hninc⟩)
  exact List.ne_nil_of_mem (List.mem_map_of_mem _ hcY)

/-- C7: `predict_attrition`'s inference tail returns exactly one risk
score per input row (the result has the input's row count), every score
lies in [0, 1], and any expected feature column absent from the
preprocessed frame is zero-filled before scaling and prediction. -/
theorem predict_scores_per_row (m : Model) (s : Scaler) (feats : List String)
    (df : Frame) (n : Nat) (hnd : (df.map Col.name).Nodup) (hrect : Rectangular df n)
    (hemp : ∃ c ∈ df, c.name = "EmployeeNumber" ∧ c.dtype = Dtype.int64) :
    (predict_with m s feats df).length = n ∧
    (∀ p ∈ predict_with m s feats df, 0 ≤ p.2 ∧ p.2 ≤ 1) ∧
    (∀ f ∈ feats, hasCol (preprocess_data df) f = false →
      featureColumn (preprocess_data df) (nrows (preprocess_data df)) f =
        List.replicate (nrows (preprocess_data df)) (some (Val.num 0))) := by
  obtain ⟨c, hc, hname, hdt⟩ := hemp
  have hnn : nrows (preprocess_data df) = n :=
    nrows_of_rect (preprocess_nonempty hnd hc hname hdt) (preprocess_rectangular hrect)
  have hemplen : (colVals df "EmployeeNumber").length = n := by
    have hfc : findCol df "EmployeeNumber" = some c := by
      have h0 := findCol_of_mem_nodup hnd hc
      rwa [hname] at h0
    simp only [colVals, hfc, Option.map_some', Option.getD_some]
    exact hrect c hc
  refine ⟨?_, ?_, ?_⟩
  · simp only [predict_with]
    rw [List.length_zip, hemplen]
    simp [featureRows, hnn]
  · intro p hp
    simp only [predict_with] at hp
    rcases p with ⟨a, b⟩
    have hb := (List.of_mem_zip hp).2
    obtain ⟨row, _, rfl⟩ := List.mem_map.mp hb
    exact m.proba_range row
  · intro f _ hnot
    have hfd : findCol (preprocess_data df) f = none := by
      unfold hasCol at hnot
      exact Option.not_isSome_iff_eq_none.mp (by simp [hnot])
    unfold featureColumn
    rw [hfd]

theorem predict_scores_witness :
    (predict_with constModel idScaler ["Age"] sample5).length = 5 :=
  (predict_scores_per_row constModel idScaler ["Age"] sample5 5
    (by decide) (by unfold Rectangular; decide) (by decide)).1

/- ### Claim C8 -/

/-- C8: neither validation nor preprocessing mutates the caller's frame:
`validate_dataframe` leaves the heap untouched, and both preprocessors
allocate a copy and mutate only the fresh objects, so the object behind
the caller's reference is unchanged on success and failure alike. -/
theorem no_caller_mutation (sch : DataSchema) (h : PyHeap) (r : Nat)
    (toD scaleC : List (Option Val) → List (Option Val)) (hr : r < h.next) :
    (validate_dataframe_ref sch h r).2 = h ∧
    (DataLoader_preprocess_ref sch h r).2.read r = h.read r ∧
    (BaseAgent_preprocess_ref toD scaleC h r).2.read r = h.read r := by
  have hne1 : r ≠ h.next := Nat.ne_of_lt hr
  have hne2 : r ≠ h.next + 1 := Nat.ne_of_lt (Nat.lt_succ_of_lt hr)
  refine ⟨rfl, ?_, ?_⟩
  · unfold DataLoader_preprocess_ref
    dsimp only [PyHeap.alloc, PyHeap.write, PyHeap.read]
    split
    · dsimp only [PyHeap.read]
      rw [Function.update_noteq hne2, Function.update_noteq hne2, Function.update_noteq hne1]
    · dsimp only [PyHeap.read]
      rw [Function.update_noteq hne2, Function.update_noteq hne2, Function.update_noteq hne1]
  · unfold BaseAgent_preprocess_ref
    dsimp only [PyHeap.alloc, PyHeap.write, PyHeap.read]
    rw [Function.update_noteq hne1, Function.update_noteq hne1, Function.update_noteq hne1,
      Function.update_noteq hne1, Function.update_noteq hne1]

/-- A one-object heap holding the sample frame. -/
def oneFrameHeap : PyHeap := { next := 1, mem := fun _ => sample5 }

theorem no_caller_mutation_witness :
    0 < oneFrameHeap.next ∧
    (DataLoader_preprocess_ref HR_SCHEMA oneFrameHeap 0).2.read 0 = oneFrameHeap.read 0 :=
  ⟨by decide, (no_caller_mutation HR_SCHEMA oneFrameHeap 0 id id (by decide)).2.1⟩

end WorkforceAnalysis
